import Mathlib

/-!
Verification of the Blackbook address-book core: the cache refresher
(`app/jobs.py`), the soft-failing directory search primitive
(`app/ldap_utils.py`), the public/private visibility merge
(`app/main/routes.py` / `app/main/helpers.py`), the write-path refresh
scheduling, and the Google-contacts import pipeline
(`generate_import_stream` in both `app/main/routes.py` and
`app/main/helpers.py`).

Python dictionaries holding LDAP entries are modelled as a `Record`
structure carrying the entry `dn`, the attribute map (attribute name to
list of string values, as `ldap3` returns `entry[attr].values`), and the
optional `is_private` key that the visibility merge adds to private
results.  Machine-level concerns (bytes for photos) are irrelevant to the
claims and values are kept as strings.
-/

/-! ### Python string primitives

The Python code uses `str.lower()`, `str.strip()`, `str.split(",")` and
`str.format`.  They are embedded as character-list functions with the same
behaviour on the strings involved (ASCII attribute values and DNs), so that
concrete runs reduce inside the kernel. -/

/-- Python `str.lower()`. -/
def pyLower (s : String) : String := ⟨s.data.map Char.toLower⟩

/-- Python `str.strip()` (whitespace removal at both ends). -/
def pyStrip (s : String) : String :=
  ⟨((s.data.dropWhile Char.isWhitespace).reverse.dropWhile Char.isWhitespace).reverse⟩

/-- Worker for `pySplit`: splits at every separator, keeping empty pieces,
like Python `str.split(sep)` with a one-character separator. -/
def splitCharAux (sep : Char) : List Char → List Char → List String
  | [], acc => [⟨acc.reverse⟩]
  | c :: rest, acc =>
    if c = sep then ⟨acc.reverse⟩ :: splitCharAux sep rest []
    else splitCharAux sep rest (c :: acc)

/-- Python `str.split(sep)` for a one-character separator. -/
def pySplit (s : String) (sep : Char) : List String := splitCharAux sep s.data []

/-- Replaces every occurrence of `pat` in the list, used to model
`str.format` on a template containing one placeholder. -/
def replaceSubAux (pat repl : List Char) : List Char → List Char
  | [] => []
  | c :: rest =>
    if pat ≠ [] ∧ pat.isPrefixOf (c :: rest) then
      repl ++ replaceSubAux pat repl (rest.drop (pat.length - 1))
    else
      c :: replaceSubAux pat repl rest
termination_by l => l.length
decreasing_by
  · simp only [List.length_drop, List.length_cons]
    omega
  · simp

/-- Python `tmpl.format(user_id=user_id)` for the private-OU template: every
occurrence of the `user_id` placeholder is replaced by the decimal user id. -/
def formatUserId (tmpl : String) (userId : Nat) : String :=
  ⟨replaceSubAux ("\x7buser_id\x7d".data) (toString userId).data tmpl.data⟩

/-- One directory entry as the Python code represents it: a dict with the
entry `dn`, one key per requested attribute (each a list of values, as
built in `search_ldap` from `entry[attr].values`), and the optional
`is_private` key added by the visibility merge (`none` models a dict
without that key). -/
structure Record where
  dn : String
  attrs : List (String × List String) := []
  is_private : Option Bool := none
deriving DecidableEq, Repr

/-- First value of an attribute, when present and nonempty: models the
Python pattern `p.get(a) and p[a][0]`. -/
def Record.firstAttr (r : Record) (a : String) : Option String :=
  match r.attrs.lookup a with
  | some (v :: _) => some v
  | _ => none

/-! ### The refresher's search filter (`app/jobs.py`, `refresh_ldap_cache`)

`refresh_ldap_cache` splits `LDAP_PERSON_OBJECT_CLASS` on commas, renders
one `(objectClass=<cls>)` equality filter per class, concatenates them and,
when more than one class is configured, wraps the concatenation in `(&...)`.
-/

/-- The search filter string built by `refresh_ldap_cache`
(`app/jobs.py` lines 31-35), as a function of the configured
`LDAP_PERSON_OBJECT_CLASS` string. -/
def buildRefreshFilter (personObjectClass : String) : String :=
  let person_classes := pySplit personObjectClass ','
  let search_filter :=
    String.join (person_classes.map (fun cls => "(objectClass=" ++ pyStrip cls ++ ")"))
  if person_classes.length > 1 then "(&" ++ search_filter ++ ")" else search_filter

/-- Concatenation of the per-class `(objectClass=c)` equality filters. -/
def renderEqList (classes : List String) : String :=
  String.join (classes.map (fun c => "(objectClass=" ++ c ++ ")"))

/-- LDAP rendering of the disjunction of the per-class equality filters. -/
def renderOrFilter (classes : List String) : String :=
  "(|" ++ renderEqList classes ++ ")"

/-- LDAP rendering of the conjunction of the per-class equality filters. -/
def renderAndFilter (classes : List String) : String :=
  "(&" ++ renderEqList classes ++ ")"

/-- LDAP semantics of a single `(objectClass=c)` equality filter: the entry
carries `c` among its (multi-valued) `objectClass` values. -/
def entryHasClass (r : Record) (c : String) : Bool :=
  ((r.attrs.lookup "objectClass").getD []).contains c

/-- LDAP semantics of the disjunction `(|(objectClass=c1)...(objectClass=cn))`:
the entry matches some configured class. -/
def entryMatchesAny (r : Record) (classes : List String) : Bool :=
  classes.any (entryHasClass r)

/-- LDAP semantics of the conjunction `(&(objectClass=c1)...(objectClass=cn))`:
the entry matches every configured class. -/
def entryMatchesAll (r : Record) (classes : List String) : Bool :=
  classes.all (entryHasClass r)

/-! ### The soft-failing search primitive (`app/ldap_utils.py`, `search_ldap`)

`search_ldap` obtains a read-only connection (`get_ldap_connection` returns
`None` on bind/connection failure), returns `[]` when there is no
connection, runs the search inside `try/except LDAPException` returning
`[]` on a search exception, and otherwise converts the entries.  The
directory server is modelled as an environment: `connectOk` states whether
`get_ldap_connection` succeeds, `searchExc` is the pending `LDAPException`
(if any), and `entries` gives the search results per
(base, filter, attributes).  Results of `Except String` make raising
observable: a function that never returns `.error` never lets an exception
escape. -/
structure LdapEnv where
  connectOk : Bool
  searchExc : Option String
  entries : String → String → List String → List Record

/-- The raw `conn.search` call: raises (models `LDAPException`) when the
environment has a pending search exception. -/
def connSearch (env : LdapEnv) (search_base filter_str : String)
    (attributes : List String) : Except String (List Record) :=
  match env.searchExc with
  | some e => .error e
  | none => .ok (env.entries search_base filter_str attributes)

/-- `search_ldap` (`app/ldap_utils.py` lines 193-227): returns `[]` when no
connection can be made, catches `LDAPException` from the search and returns
`[]`, otherwise returns the converted entries.  It never propagates an
error. -/
def search_ldap (env : LdapEnv) (filter_str : String) (attributes : List String)
    (search_base : String) : Except String (List Record) :=
  if !env.connectOk then
    .ok []
  else
    match connSearch env search_base filter_str attributes with
    | .error _ => .ok []
    | .ok results => .ok results

/-- The static configuration read by the refresher. -/
structure AppConfig where
  personObjectClass : String
  personAttributes : List String
  contactsDn : String

/-- `refresh_ldap_cache` (`app/jobs.py` lines 24-43): builds the object-class
filter, runs one `search_ldap` under `LDAP_CONTACTS_DN`, and overwrites the
`all_people` cache entry with the result list.  The cache is modelled by its
single entry of interest (`none` = key absent); the function returns the new
cache state. -/
def refresh_ldap_cache (env : LdapEnv) (cfg : AppConfig)
    (_cache : Option (List Record)) : Except String (Option (List Record)) :=
  let search_filter := buildRefreshFilter cfg.personObjectClass
  match search_ldap env search_filter cfg.personAttributes cfg.contactsDn with
  | .error e => .error e
  | .ok people_list => .ok (some people_list)

/-! ### The visibility merge (`_get_visible_contacts`, `app/main/routes.py`
lines 141-158, identical to `get_visible_contacts` in `app/main/helpers.py`)

The merge builds the Python dict
`{p["dn"]: p for p in private_contacts + public_contacts}` and returns its
values.  A Python dict keeps the position of a key's first insertion and
the value of its last assignment; `insertDict` reproduces that. -/

/-- Assignment `d[k] = v` on an insertion-ordered dict: replaces the value
in place when the key is present, appends otherwise. -/
def insertDict (d : List (String × Record)) (k : String) (v : Record) :
    List (String × Record) :=
  match d with
  | [] => [(k, v)]
  | (k', v') :: rest =>
    if k' = k then (k, v) :: rest else (k', v') :: insertDict rest k v

/-- The dict comprehension `{p["dn"]: p for p in ps}`. -/
def buildDict (ps : List Record) : List (String × Record) :=
  ps.foldl (fun d p => insertDict d p.dn p) []

/-- `list(d.values())`. -/
def dictValues (d : List (String × Record)) : List Record := d.map (·.2)

/-- Dict lookup by key (`d[k]` when present). -/
def lookupKey : List (String × Record) → String → Option Record
  | [], _ => none
  | (k', v') :: rest, k => if k' = k then some v' else lookupKey rest k

/-- Every pair of the dn-keyed dict maps a dn to a record carrying that
dn — an invariant of `buildDict`. -/
def pairsOk (d : List (String × Record)) : Prop :=
  ∀ kv ∈ d, kv.2.dn = kv.1

/-- `contact["is_private"] = True`, applied to every private result. -/
def tagPrivate (r : Record) : Record := { r with is_private := some true }

/-- The final two lines of `_get_visible_contacts`: tag the private results,
build the dn-keyed dict over `private_contacts + public_contacts`, return
its values. -/
def mergeVisible (private_raw : List Record) (public_contacts : List Record) :
    List Record :=
  dictValues (buildDict ((private_raw.map tagPrivate) ++ public_contacts))

/-- `_get_visible_contacts` (`app/main/routes.py` lines 141-158): the public
contacts are `cache.get("all_people") or []`; when a private-OU template is
configured (non-empty string, Python truthiness) the user's subtree is
searched live via `search_ldap`; the two lists are merged dn-keyed. -/
def get_visible_contacts (env : LdapEnv) (cacheVal : Option (List Record))
    (privateOuTemplate : String) (personAttrs : List String) (userId : Nat) :
    Except String (List Record) :=
  let public_contacts := cacheVal.getD []
  let privateSearch :=
    if privateOuTemplate ≠ "" then
      search_ldap env "(objectClass=*)" personAttrs (formatUserId privateOuTemplate userId)
    else
      .ok []
  match privateSearch with
  | .error e => .error e
  | .ok private_contacts => .ok (mergeVisible private_contacts public_contacts)

/-! ### Write-path refresh scheduling (`app/main/routes.py`)

Every successful write schedules `refresh_ldap_cache` through the shared
APScheduler instance.  `add_job` is modelled by the scheduler contract the
code relies on: at most one pending job per id; with `replace_existing=True`
a resubmitted id replaces the pending job, with `replace_existing=False` a
colliding id is rejected (`ConflictingIdError`, pending jobs unchanged) and
a fresh id is appended. -/

/-- A pending scheduler job, identified by its id (all write paths schedule
the same function, `refresh_ldap_cache`). -/
structure Job where
  id : String
deriving DecidableEq, Repr

/-- `scheduler.add_job(func=refresh_ldap_cache, ..., id=jobId,
replace_existing=replaceExisting)` acting on the pending-job list. -/
def add_job (pending : List Job) (jobId : String) (replaceExisting : Bool) :
    List Job :=
  if pending.any (fun j => j.id = jobId) then
    if replaceExisting then
      pending.map (fun j => if j.id = jobId then { id := jobId } else j)
    else
      pending
  else
    pending ++ [{ id := jobId }]

/-- The scheduling call in `add_person` (`app/main/routes.py` lines
531-536). -/
def add_person_schedule (pending : List Job) : List Job :=
  add_job pending "manual_refresh_add" true

/-- The scheduling call in `edit_person` (`app/main/routes.py` lines
611-616). -/
def edit_person_schedule (pending : List Job) : List Job :=
  add_job pending "manual_refresh_edit" true

/-- The scheduling call in `delete_person` (`app/main/routes.py` lines
643-648). -/
def delete_person_schedule (pending : List Job) : List Job :=
  add_job pending "manual_refresh_delete" true

/-- The scheduling call in `toggle_contact_privacy` (`app/main/routes.py`
lines 1036-1041): the id is `f"manual_refresh_move_{uuid.uuid4()}"` with
`replace_existing=False`; `u` is the fresh UUID string. -/
def toggle_contact_privacy_schedule (pending : List Job) (u : String) : List Job :=
  add_job pending ("manual_refresh_move_" ++ u) false

/-- Number of pending jobs with the given id. -/
def countId (pending : List Job) (jobId : String) : Nat :=
  pending.countP (fun j => j.id = jobId)

/-! ### The Google-contacts import pipeline

Two implementations exist: `generate_import_stream` in
`app/main/routes.py` (lines 718-853, consumed by the
`/import/google/stream` endpoint) and `generate_import_stream` in
`app/main/helpers.py` (lines 239-291, using `_map_google_contact_to_ldap`
and `_process_and_add_contact`).  Both are embedded.  The fetched contact
list, the pre-existing destination entries and the outcome of each
directory add (`add_ldap_entry` returning `True`/`False`) are inputs, as
they come from external collaborators.  The emitted SSE events are
returned as a list; scheduling side effects are returned as the list of
scheduled job ids. -/

/-- A `names` element of a Google People person (`.get` of the three used
fields; `none` models an absent key). -/
structure GName where
  displayName : Option String := none
  givenName : Option String := none
  familyName : Option String := none
deriving DecidableEq, Repr

/-- An `organizations` element (the two used fields). -/
structure GOrg where
  name : Option String := none
  title : Option String := none
deriving DecidableEq, Repr

/-- An `addresses` element (the four used fields). -/
structure GAddr where
  streetAddress : Option String := none
  city : Option String := none
  postalCode : Option String := none
  countryCode : Option String := none
deriving DecidableEq, Repr

/-- One external record from the Google People API, reduced to the fields
the import reads.  `emailAddresses` and `phoneNumbers` elements are their
`.get("value")` results. -/
structure GPerson where
  names : List GName := []
  emailAddresses : List (Option String) := []
  phoneNumbers : List (Option String) := []
  organizations : List GOrg := []
  addresses : List GAddr := []
deriving DecidableEq, Repr

/-- The attribute dict built for one record.  `none` models both an absent
key and a `None` value: the code treats the two identically (truthiness
checks and the `if v` filter before the add). -/
structure LdapAttrs where
  cn : Option String := none
  givenName : Option String := none
  sn : Option String := none
  mail : Option String := none
  telephoneNumber : Option String := none
  o : Option String := none
  title : Option String := none
  street : Option String := none
  l : Option String := none
  postalCode : Option String := none
  c : Option String := none
deriving DecidableEq, Repr

/-- Python truthiness of an optional string: `None` and `""` are falsy. -/
def optTruthy : Option String → Bool
  | none => false
  | some s => s != ""

/-- `re.sub(r"[^0-9+]", "", phone)`: keeps decimal digits and `+` wherever
they occur, drops everything else. -/
def normalizePhone (phone : String) : String :=
  ⟨phone.data.filter (fun ch => ch.isDigit || ch == '+')⟩

/-- The `names` block of `_map_google_contact_to_ldap`
(`app/main/helpers.py` lines 188-193): `cn`, `givenName` and `sn` from the
first name, with `sn` falling back to `cn` when falsy. -/
def mapNamesBlock (person : GPerson) : LdapAttrs :=
  match person.names with
  | [] => {}
  | n :: _ =>
    let a : LdapAttrs := { cn := n.displayName, givenName := n.givenName, sn := n.familyName }
    if !optTruthy a.sn && optTruthy a.cn then { a with sn := a.cn } else a

/-- The `emailAddresses` block (line 197-198): `mail` from the first
element's value. -/
def mapEmailBlock (person : GPerson) (a : LdapAttrs) : LdapAttrs :=
  match person.emailAddresses with
  | [] => a
  | v :: _ => { a with mail := v }

/-- The `phoneNumbers` block (lines 199-202): when the first element's
value is truthy, `telephoneNumber` is that value stripped to digits and
`+`. -/
def mapPhoneBlock (person : GPerson) (a : LdapAttrs) : LdapAttrs :=
  match person.phoneNumbers with
  | [] => a
  | v :: _ =>
    match v with
    | some phone =>
      if phone != "" then { a with telephoneNumber := some (normalizePhone phone) } else a
    | none => a

/-- The `organizations` block (lines 203-205). -/
def mapOrgBlock (person : GPerson) (a : LdapAttrs) : LdapAttrs :=
  match person.organizations with
  | [] => a
  | o :: _ => { a with o := o.name, title := o.title }

/-- The `addresses` block (lines 206-210). -/
def mapAddressBlock (person : GPerson) (a : LdapAttrs) : LdapAttrs :=
  match person.addresses with
  | [] => a
  | ad :: _ =>
    { a with street := ad.streetAddress, l := ad.city,
             postalCode := ad.postalCode, c := ad.countryCode }

/-- `_map_google_contact_to_ldap` (`app/main/helpers.py` lines 185-212),
as the sequence of its five field blocks with the `cn` truthiness gate in
source position (the gate sits after the names block and before the other
blocks, which cannot change `cn`); `app/main/routes.py` lines 776-807
inline the same mapping field for field, with the no-`cn` case expressed
as a `continue` instead of `None`. -/
def _map_google_contact_to_ldap (person : GPerson) : Option LdapAttrs :=
  let a := mapNamesBlock person
  if !optTruthy a.cn then none
  else
    some (mapAddressBlock person (mapOrgBlock person
      (mapPhoneBlock person (mapEmailBlock person a))))

/-- `(attributes.get("mail") or "").lower()`. -/
def emailOf (a : LdapAttrs) : String := pyLower (a.mail.getD "")

/-- `(attributes.get("cn") or "").lower()`. -/
def nameOf (a : LdapAttrs) : String := pyLower (a.cn.getD "")

/-- Python `set.add`: no change when the element is present. -/
def insertStr (s : List String) (x : String) : List String :=
  if s.contains x then s else x :: s

/-- The duplicate-detection preload over the destination subtree: the set
comprehension `{p[a][0].lower() for p in existing if p.get(a) and p[a][0]}`
(`app/main/routes.py` lines 770-772). -/
def preloadSet (existing : List Record) (a : String) : List String :=
  existing.foldl
    (fun s r =>
      match r.firstAttr a with
      | some v => if v != "" then insertStr s (pyLower v) else s
      | none => s)
    []

/-- One JSON event payload of the SSE stream. -/
structure Event where
  status : String
  current : Option Nat := none
  total : Option Nat := none
  message : String
deriving DecidableEq, Repr

/-- How one record was handled: skipped for lacking a resolvable name,
skipped as a duplicate, written to the directory, or attempted but the
directory add failed. -/
inductive Outcome where
  | noName
  | dupSkip
  | addedOk
  | addFailed
deriving DecidableEq, Repr

/-- The per-run working state: the running dedup sets and counters. -/
structure ImpState where
  emails : List String
  names : List String
  imported : Nat
  skipped : Nat
deriving DecidableEq, Repr

/-- The observable result of one import run: the emitted events, the
scheduled job ids, the final working state (absent on the early-exit
paths), and, for the routes implementation, the per-record outcomes. -/
structure ImportResult where
  events : List Event
  scheduled : List String
  finalState : Option ImpState
  outcomes : List Outcome := []
deriving DecidableEq, Repr

namespace Routes

/-- The loop body of `generate_import_stream` in `app/main/routes.py`
(lines 774-840) for one record: map the record; skip it without counters
beyond `skipped_count` when it has no resolvable name; skip it as a
duplicate when its nonempty lowercase email or name is in a running set;
otherwise attempt the directory add (`addOk` is `add_ldap_entry`'s
result), incrementing `imported_count` and extending the running sets only
on success.  The generated `uid`, owner stamping and DN construction only
feed the add call and are absorbed into `addOk`. -/
def importStep (addOk : Bool) (st : ImpState) (person : GPerson) :
    ImpState × Outcome × String :=
  match _map_google_contact_to_ldap person with
  | none =>
    ({ st with skipped := st.skipped + 1 }, .noName, "Skipping contact with no name.")
  | some attributes =>
    let email := emailOf attributes
    let name := nameOf attributes
    if (email != "" && st.emails.contains email) ||
        (name != "" && st.names.contains name) then
      ({ st with skipped := st.skipped + 1 }, .dupSkip, "Skipping duplicate: " ++ name)
    else if addOk then
      ({ st with
          imported := st.imported + 1,
          emails := if email != "" then insertStr st.emails email else st.emails,
          names := if name != "" then insertStr st.names name else st.names },
        .addedOk, "Successfully imported: " ++ name)
    else
      (st, .addFailed, "Failed to import: " ++ name)

/-- The `for i, person in enumerate(all_connections)` loop: one progress
event per record, carrying `current = i + 1` and the total. -/
def importLoop (addOk : Nat → Bool) (total : Nat) :
    Nat → ImpState → List GPerson → ImpState × List (Outcome × Event)
  | _, st, [] => (st, [])
  | i, st, person :: rest =>
    let r := importStep (addOk i) st person
    let ev : Event :=
      { status := "progress", current := some (i + 1), total := some total,
        message := r.2.2 }
    let res := importLoop addOk total (i + 1) r.1 rest
    (res.1, (r.2.1, ev) :: res.2)

/-- `generate_import_stream` (`app/main/routes.py` lines 718-853).  The
token is checked for presence; the paged fetch is an input (`.error` models
a `RequestException` from any page); the pre-existing destination entries
feed the dedup preload; after the loop one refresh is scheduled under
`"manual_refresh_import"` iff at least one record was imported. -/
def generate_import_stream (token : Option String)
    (fetched : Except String (List GPerson)) (existing : List Record)
    (addOk : Nat → Bool) : ImportResult :=
  match token with
  | none =>
    { events := [{ status := "error", message := "No token found in session." }],
      scheduled := [], finalState := none }
  | some _ =>
    match fetched with
    | .error e =>
      { events := [{ status := "error", message := e }],
        scheduled := [], finalState := none }
    | .ok all_connections =>
      let total_contacts := all_connections.length
      if total_contacts == 0 then
        { events := [{ status := "complete", message := "No contacts found to import." }],
          scheduled := [], finalState := none }
      else
        let st0 : ImpState :=
          { emails := preloadSet existing "mail", names := preloadSet existing "cn",
            imported := 0, skipped := 0 }
        let res := importLoop addOk total_contacts 0 st0 all_connections
        let stf := res.1
        let final_message :=
          "Import complete. Added " ++ toString stf.imported ++
          " new contacts and skipped " ++ toString stf.skipped ++ " duplicates."
        { events := res.2.map (·.2) ++ [{ status := "complete", message := final_message }],
          scheduled := if stf.imported > 0 then ["manual_refresh_import"] else [],
          finalState := some stf,
          outcomes := res.2.map (·.1) }

end Routes

namespace Helpers

/-- `_process_and_add_contact` (`app/main/helpers.py` lines 215-236):
returns the updated `(existing_names, existing_emails)` sets (mutated in
place in Python) together with the status string and message. -/
def _process_and_add_contact (addOk : Bool) (attributes : LdapAttrs)
    (existing_names existing_emails : List String) :
    (List String × List String) × String × String :=
  let name := pyLower (attributes.cn.getD "")
  let email := pyLower (attributes.mail.getD "")
  if (email != "" && existing_emails.contains email) ||
      (name != "" && existing_names.contains name) then
    ((existing_names, existing_emails), "skipped",
      "Skipping duplicate: " ++ attributes.cn.getD "")
  else if addOk then
    ((if name != "" then insertStr existing_names name else existing_names,
      if email != "" then insertStr existing_emails email else existing_emails),
      "imported", "Successfully imported: " ++ attributes.cn.getD "")
  else
    ((existing_names, existing_emails), "failed",
      "Failed to import: " ++ attributes.cn.getD "")

/-- The loop body of `generate_import_stream` in `app/main/helpers.py`
(lines 269-282) for one record: a record without a resolvable name
increments `skipped_count`; otherwise `_process_and_add_contact` runs and
any status other than `"imported"` (including `"failed"`) increments
`skipped_count`. -/
def importStep (addOk : Bool) (st : ImpState) (person : GPerson) :
    ImpState × String :=
  match _map_google_contact_to_ldap person with
  | none =>
    ({ st with skipped := st.skipped + 1 }, "Skipping contact with no name.")
  | some attributes =>
    let r := _process_and_add_contact addOk attributes st.names st.emails
    let st' := { st with names := r.1.1, emails := r.1.2 }
    if r.2.1 == "imported" then
      ({ st' with imported := st'.imported + 1 }, r.2.2)
    else
      ({ st' with skipped := st'.skipped + 1 }, r.2.2)

/-- The `for i, person in enumerate(connections)` loop of the helpers
implementation: one progress event per record. -/
def importLoop (addOk : Nat → Bool) (total : Nat) :
    Nat → ImpState → List GPerson → ImpState × List Event
  | _, st, [] => (st, [])
  | i, st, person :: rest =>
    let step := importStep (addOk i) st person
    let ev : Event :=
      { status := "progress", current := some (i + 1), total := some total,
        message := step.2 }
    let res := importLoop addOk total (i + 1) step.1 rest
    (res.1, ev :: res.2)

/-- `generate_import_stream` (`app/main/helpers.py` lines 239-291).  Same
inputs as the routes implementation; `_fetch_google_connections` is an
input (`.error` models a `RequestException`). -/
def generate_import_stream (token : Option String)
    (fetched : Except String (List GPerson)) (existing : List Record)
    (addOk : Nat → Bool) : ImportResult :=
  match token with
  | none =>
    { events := [{ status := "error", message := "No token found." }],
      scheduled := [], finalState := none }
  | some _ =>
    match fetched with
    | .error e =>
      { events := [{ status := "error", message := e }],
        scheduled := [], finalState := none }
    | .ok connections =>
      let total := connections.length
      if total == 0 then
        { events := [{ status := "complete", message := "No contacts found." }],
          scheduled := [], finalState := none }
      else
        let st0 : ImpState :=
          { emails := preloadSet existing "mail", names := preloadSet existing "cn",
            imported := 0, skipped := 0 }
        let res := importLoop addOk total 0 st0 connections
        let stf := res.1
        let final_msg :=
          "Import complete. Added " ++ toString stf.imported ++
          ", skipped " ++ toString stf.skipped ++ "."
        { events := res.2 ++ [{ status := "complete", message := final_msg }],
          scheduled := if stf.imported > 0 then ["manual_refresh_import"] else [],
          finalState := some stf }

end Helpers

/-! ### Concrete inputs used by counterexamples and witnesses -/

/-- An environment whose `get_ldap_connection` fails (bind/connection
error), so every search falls back to the empty list. -/
def env0fail : LdapEnv :=
  { connectOk := false, searchExc := none, entries := fun _ _ _ => [] }

/-- An environment that connects but whose search raises `LDAPException`. -/
def envExc : LdapEnv :=
  { connectOk := true, searchExc := some "LDAPSocketOpenError", entries := fun _ _ _ => [] }

/-- A cached public contact. -/
def pub0 : Record :=
  { dn := "cn=alice,ou=contacts,dc=example,dc=com", attrs := [("cn", ["Alice"])] }

/-- A public copy of the entry `cn=x`. -/
def pubX : Record :=
  { dn := "cn=x,ou=contacts,dc=example,dc=com", attrs := [("cn", ["X public"])] }

/-- A stale private copy of the same entry `cn=x`. -/
def privX : Record :=
  { dn := "cn=x,ou=contacts,dc=example,dc=com", attrs := [("cn", ["X private"])] }

/-- An entry carrying only the first of the two configured classes. -/
def entryA : Record :=
  { dn := "cn=e,ou=contacts,dc=example,dc=com", attrs := [("objectClass", ["a", "top"])] }

/-- A two-class refresher configuration. -/
def cfg0 : AppConfig :=
  { personObjectClass := "a,b", personAttributes := ["cn"],
    contactsDn := "ou=contacts,dc=example,dc=com" }

/-- An external record with no resolvable display name. -/
def pNoName : GPerson := {}

/-- An external record that maps and imports cleanly. -/
def pBob : GPerson := { names := [{ displayName := some "Bob", familyName := some "B" }] }

/-- First of two records sharing the lowercase email `x@y.com`. -/
def pAnnA : GPerson :=
  { names := [{ displayName := some "Ann A", familyName := some "A" }],
    emailAddresses := [some "x@y.com"] }

/-- Second of two records sharing the lowercase email `x@y.com`. -/
def pAnnB : GPerson :=
  { names := [{ displayName := some "Ann B", familyName := some "B" }],
    emailAddresses := [some "X@Y.com"] }

/-- An external record whose phone value has an interior `+`. -/
def pPhone : GPerson :=
  { names := [{ displayName := some "Carl", familyName := some "C" }],
    phoneNumbers := [some "12+34"] }

/-- The attribute dict `_map_google_contact_to_ldap` builds for `pPhone`. -/
def aPhone : LdapAttrs :=
  { cn := some "Carl", sn := some "C", telephoneNumber := some "12+34" }

/-- The property C9 asserts of a stored telephone number: every character
is a decimal digit except possibly a single `+` in the leading position. -/
def phoneClaimOK (t : String) : Bool :=
  t.data.enum.all (fun ic => ic.2.isDigit || (ic.2 == '+' && ic.1 == 0))

/-- The dedup sets contain no empty string: true of the preloaded sets and
preserved by every import step, since only nonempty lowercase values are
inserted. -/
def noEmptyKeys (st : ImpState) : Prop :=
  "" ∉ st.emails ∧ "" ∉ st.names

/-- The attribute dict `_map_google_contact_to_ldap` builds for `pBob`. -/
def aBob : LdapAttrs := { cn := some "Bob", sn := some "B" }

/-- The attribute dict built for `pAnnA`. -/
def aAnnA : LdapAttrs :=
  { cn := some "Ann A", sn := some "A", mail := some "x@y.com" }

/-- The attribute dict built for `pAnnB`. -/
def aAnnB : LdapAttrs :=
  { cn := some "Ann B", sn := some "B", mail := some "X@Y.com" }

/-- An empty import working state (empty destination subtree). -/
def st0empty : ImpState :=
  { emails := [], names := [], imported := 0, skipped := 0 }

/-! ### Shared helper lemmas -/

theorem contains_iff_mem (l : List String) (x : String) :
    l.contains x = true ↔ x ∈ l :=
  List.elem_iff

theorem mem_insertStr_self (s : List String) (x : String) : x ∈ insertStr s x := by
  unfold insertStr
  by_cases h : s.contains x
  · rw [if_pos h]; exact (contains_iff_mem s x).mp h
  · rw [if_neg h]; exact List.mem_cons_self x s

theorem mem_insertStr_of_mem (s : List String) (x y : String) (hx : x ∈ s) :
    x ∈ insertStr s y := by
  unfold insertStr
  by_cases h : s.contains y
  · rw [if_pos h]; exact hx
  · rw [if_neg h]; exact List.mem_cons_of_mem _ hx

theorem not_mem_insertStr (s : List String) (x y : String) (hx : x ∉ s)
    (hxy : x ≠ y) : x ∉ insertStr s y := by
  unfold insertStr
  by_cases h : s.contains y
  · rw [if_pos h]; exact hx
  · rw [if_neg h]
    intro hm
    rcases List.mem_cons.mp hm with h1 | h2
    · exact hxy h1
    · exact hx h2

theorem preloadSet_no_empty (existing : List Record) (a : String) :
    "" ∉ preloadSet existing a := by
  unfold preloadSet
  suffices h : ∀ s : List String, "" ∉ s → "" ∉ existing.foldl
      (fun s r =>
        match r.firstAttr a with
        | some v => if v != "" then insertStr s (pyLower v) else s
        | none => s) s by
    exact h [] (by simp)
  induction existing with
  | nil => intro s hs; simpa using hs
  | cons r rest ih =>
    intro s hs
    simp only [List.foldl_cons]
    apply ih
    cases hv : r.firstAttr a with
    | none => simpa using hs
    | some v =>
      by_cases hne : v != ""
      · simp only [hne, if_true]
        refine not_mem_insertStr _ _ _ hs ?_
        intro hcontra
        have hv' : v ≠ "" := by simpa using hne
        have : (pyLower v).data = [] := by rw [← hcontra]
        have hlen : v.data.length = 0 := by
          have := congrArg List.length this
          simpa [pyLower] using this
        exact hv' (by cases hd : v.data with
          | nil => cases v; simpa [hd] using congrArg String.mk hd
          | cons c cs => rw [hd] at hlen; simp at hlen)
      · simpa [hne] using hs

theorem countP_any_pos (pending : List Job) (jobId : String)
    (h : pending.any (fun j => j.id = jobId) = true) :
    0 < countId pending jobId := by
  unfold countId
  rcases List.any_eq_true.mp h with ⟨j, hj, hpred⟩
  exact List.countP_pos_iff.mpr ⟨j, hj, hpred⟩

theorem countId_add_job_stable (pending : List Job) (jobId : String)
    (h : countId pending jobId ≤ 1) :
    countId (add_job pending jobId true) jobId = 1 := by
  unfold add_job
  by_cases hany : pending.any (fun j => j.id = jobId)
  · rw [if_pos hany]
    simp only [if_true]
    unfold countId
    rw [List.countP_map]
    have hcongr : ∀ j ∈ pending,
        (((fun j : Job => decide (j.id = jobId)) ∘
          (fun j : Job => if j.id = jobId then { id := jobId } else j)) j = true ↔
        (fun j : Job => decide (j.id = jobId)) j = true) := by
      intro j _
      by_cases hj : j.id = jobId
      · simp [Function.comp, hj]
      · simp [Function.comp, hj]
    rw [List.countP_congr hcongr]
    have hpos := countP_any_pos pending jobId hany
    unfold countId at h hpos
    omega
  · rw [if_neg hany]
    unfold countId
    rw [List.countP_append]
    have hzero : pending.countP (fun j => j.id = jobId) = 0 := by
      rw [List.countP_eq_zero]
      intro j hj hpred
      exact hany (List.any_eq_true.mpr ⟨j, hj, hpred⟩)
    rw [hzero]
    simp

theorem toggle_appends (pending : List Job) (u : String)
    (h : ("manual_refresh_move_" ++ u) ∉ pending.map Job.id) :
    toggle_contact_privacy_schedule pending u =
      pending ++ [{ id := "manual_refresh_move_" ++ u }] := by
  unfold toggle_contact_privacy_schedule add_job
  rw [if_neg ?hneg]
  case hneg =>
    intro hany
    rcases List.any_eq_true.mp hany with ⟨j, hj, hpred⟩
    exact h (List.mem_map.mpr ⟨j, hj, of_decide_eq_true hpred⟩)

/-- Claim C1, counterexample: with two configured classes the filter built
by `refresh_ldap_cache` is the LDAP conjunction, not the disjunction, of
the per-class equality filters, and an entry carrying only one of the two
classes — which the claim says must be included — matches the disjunction
but not the conjunction. -/
theorem c1_counterexample :
    buildRefreshFilter "a,b" = renderAndFilter ["a", "b"] ∧
    buildRefreshFilter "a,b" ≠ renderOrFilter ["a", "b"] ∧
    entryMatchesAny entryA ["a", "b"] = true ∧
    entryMatchesAll entryA ["a", "b"] = false := by
  refine ⟨rfl, ?_, rfl, rfl⟩
  decide

/-- Claim C1, amended: for every configured class list of length at least
2, the filter built by `refresh_ldap_cache` is the conjunction
`(&(objectClass=c1)...(objectClass=cn))` of the per-class equality
filters over the stripped configured classes. -/
theorem c1_amended (s : String) (h : 2 ≤ (pySplit s ',').length) :
    buildRefreshFilter s = renderAndFilter ((pySplit s ',').map pyStrip) := by
  have hgt : (pySplit s ',').length > 1 := h
  simp only [buildRefreshFilter, renderAndFilter, renderEqList, if_pos hgt, List.map_map]
  rfl

/-- Claim C1, witness for the amended theorem at the two-class
configuration string `"a,b"`. -/
theorem c1_amended_witness :
    2 ≤ (pySplit "a,b" ',').length ∧
    buildRefreshFilter "a,b" = renderAndFilter ((pySplit "a,b" ',').map pyStrip) :=
  ⟨by decide, c1_amended "a,b" (by decide)⟩

/-- Claim C3, counterexample: two privacy-toggle writes performed before
the refresher runs leave two pending refresh jobs, because
`toggle_contact_privacy` schedules under a fresh
`manual_refresh_move_<uuid>` id with `replace_existing=False` instead of a
stable id. -/
theorem c3_counterexample :
    toggle_contact_privacy_schedule (toggle_contact_privacy_schedule [] "u1") "u2" =
      [{ id := "manual_refresh_move_u1" }, { id := "manual_refresh_move_u2" }] ∧
    ¬(toggle_contact_privacy_schedule (toggle_contact_privacy_schedule [] "u1") "u2").length ≤ 1 :=
  ⟨rfl, by decide⟩

/-- Claim C3, amended: the add, edit and delete write paths each schedule
under a stable well-known id with replace-existing semantics, so a burst
of such writes leaves exactly one pending refresh job per kind; the
move/toggle-privacy path instead schedules under a fresh uuid-based id
with `replace_existing=False`, so each move appends one more pending
job. -/
theorem c3_amended (pending : List Job) (u : String)
    (h1 : countId pending "manual_refresh_add" ≤ 1)
    (h2 : countId pending "manual_refresh_edit" ≤ 1)
    (h3 : countId pending "manual_refresh_delete" ≤ 1)
    (h4 : ("manual_refresh_move_" ++ u) ∉ pending.map Job.id) :
    countId (add_person_schedule pending) "manual_refresh_add" = 1 ∧
    countId (edit_person_schedule pending) "manual_refresh_edit" = 1 ∧
    countId (delete_person_schedule pending) "manual_refresh_delete" = 1 ∧
    toggle_contact_privacy_schedule pending u =
      pending ++ [{ id := "manual_refresh_move_" ++ u }] :=
  ⟨countId_add_job_stable _ _ h1, countId_add_job_stable _ _ h2,
    countId_add_job_stable _ _ h3, toggle_appends _ _ h4⟩

/-- Claim C3, witness for the amended theorem on a pending list already
holding one add-refresh job. -/
theorem c3_amended_witness :
    countId [({ id := "manual_refresh_add" } : Job)] "manual_refresh_add" ≤ 1 ∧
    (countId (add_person_schedule [{ id := "manual_refresh_add" }]) "manual_refresh_add" = 1 ∧
     countId (edit_person_schedule [{ id := "manual_refresh_add" }]) "manual_refresh_edit" = 1 ∧
     countId (delete_person_schedule [{ id := "manual_refresh_add" }]) "manual_refresh_delete" = 1 ∧
     toggle_contact_privacy_schedule [{ id := "manual_refresh_add" }] "u1" =
       [{ id := "manual_refresh_add" }] ++ [{ id := "manual_refresh_move_" ++ "u1" }]) :=
  ⟨by decide,
    c3_amended [{ id := "manual_refresh_add" }] "u1" (by decide) (by decide) (by decide) (by decide)⟩

/-- Claim C7: when the directory connection fails or the search raises,
the refresher's `search_ldap` returns the empty list without raising, and
`refresh_ldap_cache` then overwrites the Snapshot cache entry — whatever
it previously held — with that empty list, without raising. -/
theorem c7_refresh_failure_sets_empty (env : LdapEnv) (cfg : AppConfig)
    (prev : Option (List Record))
    (hfail : env.connectOk = false ∨ env.searchExc ≠ none) :
    search_ldap env (buildRefreshFilter cfg.personObjectClass)
        cfg.personAttributes cfg.contactsDn = .ok [] ∧
    refresh_ldap_cache env cfg prev = .ok (some []) := by
  have hs : ∀ f a b, search_ldap env f a b = Except.ok [] := by
    intro f a b
    rcases hfail with h | h
    · simp [search_ldap, h]
    · cases he : env.searchExc with
      | none => exact absurd he h
      | some e => by_cases hc : env.connectOk <;> simp [search_ldap, connSearch, he, hc]
  refine ⟨hs _ _ _, ?_⟩
  simp only [refresh_ldap_cache, hs]

/-- Claim C7, witness: a connection-refusing environment with a previously
non-empty Snapshot. -/
theorem c7_witness :
    (env0fail.connectOk = false ∨ env0fail.searchExc ≠ none) ∧
    (search_ldap env0fail (buildRefreshFilter cfg0.personObjectClass)
        cfg0.personAttributes cfg0.contactsDn = .ok [] ∧
      refresh_ldap_cache env0fail cfg0 (some [pub0]) = .ok (some [])) :=
  ⟨Or.inl rfl, c7_refresh_failure_sets_empty env0fail cfg0 (some [pub0]) (Or.inl rfl)⟩

theorem normalizePhone_chars (s : String) :
    (normalizePhone s).data.all (fun ch => ch.isDigit || ch == '+') = true := by
  unfold normalizePhone
  rw [List.all_eq_true]
  intro x hx
  exact (List.mem_filter.mp hx).2

/-- Claim C9, counterexample: the imported record `pPhone` has the phone
value `"12+34"`, which the import stores unchanged — its `+` sits at a
non-leading position, violating the claimed digits-with-single-leading-plus
shape. -/
theorem c9_counterexample :
    _map_google_contact_to_ldap pPhone = some aPhone ∧
    aPhone.telephoneNumber = some "12+34" ∧
    pPhone.phoneNumbers = [some "12+34"] ∧
    phoneClaimOK "12+34" = false :=
  ⟨rfl, rfl, rfl, by decide⟩

/-- Claim C9, amended: the stored telephone number is the record's first
phone value with every character other than decimal digits and `+`
removed; every character of the result is a decimal digit or a `+`, with
`+` preserved wherever it occurred (not only in leading position). -/
theorem c9_amended (person : GPerson) (a : LdapAttrs) (t : String)
    (hmap : _map_google_contact_to_ldap person = some a)
    (ht : a.telephoneNumber = some t) :
    (∃ phone, person.phoneNumbers.head? = some (some phone) ∧ phone ≠ "" ∧
      t = normalizePhone phone) ∧
    t.data.all (fun ch => ch.isDigit || ch == '+') = true := by
  suffices hfirst : ∃ phone, person.phoneNumbers.head? = some (some phone) ∧ phone ≠ "" ∧
      t = normalizePhone phone by
    refine ⟨hfirst, ?_⟩
    rcases hfirst with ⟨phone, _, _, hteq⟩
    rw [hteq]
    exact normalizePhone_chars phone
  have htelAddr : ∀ p b, (mapAddressBlock p b).telephoneNumber = b.telephoneNumber := by
    intro p b; unfold mapAddressBlock; cases p.addresses <;> rfl
  have htelOrg : ∀ p b, (mapOrgBlock p b).telephoneNumber = b.telephoneNumber := by
    intro p b; unfold mapOrgBlock; cases p.organizations <;> rfl
  have htelEmail : ∀ p b, (mapEmailBlock p b).telephoneNumber = b.telephoneNumber := by
    intro p b; unfold mapEmailBlock; cases p.emailAddresses <;> rfl
  have htelNames : ∀ p, (mapNamesBlock p).telephoneNumber = none := by
    intro p
    unfold mapNamesBlock
    cases p.names with
    | nil => rfl
    | cons n rest => dsimp only []; split <;> rfl
  unfold _map_google_contact_to_ldap at hmap
  by_cases hcn : (!optTruthy (mapNamesBlock person).cn) = true
  · rw [if_pos hcn] at hmap
    exact absurd hmap (by simp)
  · rw [if_neg hcn] at hmap
    rw [Option.some_inj] at hmap
    rw [← hmap, htelAddr, htelOrg] at ht
    unfold mapPhoneBlock at ht
    cases hp : person.phoneNumbers with
    | nil =>
      rw [hp] at ht
      rw [htelEmail, htelNames] at ht
      exact absurd ht (by simp)
    | cons v vr =>
      rw [hp] at ht
      cases v with
      | none =>
        dsimp only at ht
        rw [htelEmail, htelNames] at ht
        exact absurd ht (by simp)
      | some phone =>
        dsimp only at ht
        by_cases hph : (phone != "") = true
        · rw [if_pos hph] at ht
          refine ⟨phone, rfl, by simpa using hph, ?_⟩
          simpa using ht.symm
        · rw [if_neg hph] at ht
          rw [htelEmail, htelNames] at ht
          exact absurd ht (by simp)

/-- Claim C9, witness for the amended theorem: all characters of the
stored number for `pPhone` are digits or `+`. -/
theorem c9_amended_witness :
    ("12+34" : String).data.all (fun ch => ch.isDigit || ch == '+') = true :=
  (c9_amended pPhone aPhone "12+34" rfl rfl).2

/-- Claim C5: for every import run of the endpoint's generator (and of the
helpers variant), the post-import refresh is scheduled exactly once, under
the single id `manual_refresh_import`, when at least one record was
imported, and not at all when zero records were imported (including every
early-exit path, where no final state exists). -/
theorem c5_refresh_iff_imported (token : Option String)
    (fetched : Except String (List GPerson)) (existing : List Record)
    (addOk : Nat → Bool) :
    (Routes.generate_import_stream token fetched existing addOk).scheduled =
      (if 0 < ((Routes.generate_import_stream token fetched existing addOk).finalState.map
          ImpState.imported).getD 0
        then ["manual_refresh_import"] else []) ∧
    (Helpers.generate_import_stream token fetched existing addOk).scheduled =
      (if 0 < ((Helpers.generate_import_stream token fetched existing addOk).finalState.map
          ImpState.imported).getD 0
        then ["manual_refresh_import"] else []) := by
  constructor
  · cases token with
    | none => rfl
    | some t =>
      cases fetched with
      | error e => rfl
      | ok conns =>
        by_cases h : (conns.length == 0) = true
        · simp [Routes.generate_import_stream, h]
        · simp only [Routes.generate_import_stream]
          rw [if_neg h]
          rfl
  · cases token with
    | none => rfl
    | some t =>
      cases fetched with
      | error e => rfl
      | ok conns =>
        by_cases h : (conns.length == 0) = true
        · simp [Helpers.generate_import_stream, h]
        · simp only [Helpers.generate_import_stream]
          rw [if_neg h]
          rfl

/-- Claim C8, counterexample: on the claimed two-record scenario the
endpoint's generator ends with the message
`"Import complete. Added 1 new contacts and skipped 1 duplicates."`, not
the claimed `"Import complete. Added 1, skipped 1."`. -/
theorem c8_counterexample :
    (Routes.generate_import_stream (some "tok") (.ok [pNoName, pBob]) []
        (fun _ => true)).events.getLast?.map Event.message =
      some "Import complete. Added 1 new contacts and skipped 1 duplicates." ∧
    "Import complete. Added 1 new contacts and skipped 1 duplicates." ≠
      "Import complete. Added 1, skipped 1." :=
  ⟨rfl, by decide⟩

/-- Claim C8, amended: on an import run over exactly two records, one
without a resolvable name and one successfully imported, the run ends with
imported count 1 and skipped count 1; the endpoint's generator emits the
final message `"Import complete. Added 1 new contacts and skipped 1
duplicates."`, while the helpers variant of the generator emits exactly
`"Import complete. Added 1, skipped 1."`. -/
theorem c8_amended :
    (Routes.generate_import_stream (some "tok") (.ok [pNoName, pBob]) []
        (fun _ => true)).finalState.map (fun s => (s.imported, s.skipped)) = some (1, 1) ∧
    (Routes.generate_import_stream (some "tok") (.ok [pNoName, pBob]) []
        (fun _ => true)).events =
      [{ status := "progress", current := some 1, total := some 2,
         message := "Skipping contact with no name." },
       { status := "progress", current := some 2, total := some 2,
         message := "Successfully imported: bob" },
       { status := "complete",
         message := "Import complete. Added 1 new contacts and skipped 1 duplicates." }] ∧
    (Helpers.generate_import_stream (some "tok") (.ok [pNoName, pBob]) []
        (fun _ => true)).finalState.map (fun s => (s.imported, s.skipped)) = some (1, 1) ∧
    (Helpers.generate_import_stream (some "tok") (.ok [pNoName, pBob]) []
        (fun _ => true)).events.getLast?.map Event.message =
      some "Import complete. Added 1, skipped 1." :=
  ⟨rfl, rfl, rfl, rfl⟩

/-- Claim C10, counterexample: the two implementations are not
equivalent.  On the identical no-token input they emit different message
texts, and on an identical one-record input whose directory add fails
they compute different skipped counts (the helpers implementation counts
the failed record as skipped, the routes implementation counts it in
neither bucket). -/
theorem c10_counterexample :
    (Routes.generate_import_stream none (.ok []) [] (fun _ => true)).events =
      [{ status := "error", message := "No token found in session." }] ∧
    (Helpers.generate_import_stream none (.ok []) [] (fun _ => true)).events =
      [{ status := "error", message := "No token found." }] ∧
    (Routes.generate_import_stream none (.ok []) [] (fun _ => true)).events ≠
      (Helpers.generate_import_stream none (.ok []) [] (fun _ => true)).events ∧
    (Routes.generate_import_stream (some "tok") (.ok [pAnnA]) []
        (fun _ => false)).finalState.map ImpState.skipped = some 0 ∧
    (Helpers.generate_import_stream (some "tok") (.ok [pAnnA]) []
        (fun _ => false)).finalState.map ImpState.skipped = some 1 :=
  ⟨rfl, rfl, by decide, rfl, rfl⟩

theorem steps_agree (ok : Bool) (sr sh : ImpState) (p : GPerson)
    (he : sr.emails = sh.emails) (hn : sr.names = sh.names)
    (hi : sr.imported = sh.imported) :
    (Routes.importStep ok sr p).1.emails = (Helpers.importStep ok sh p).1.emails ∧
    (Routes.importStep ok sr p).1.names = (Helpers.importStep ok sh p).1.names ∧
    (Routes.importStep ok sr p).1.imported = (Helpers.importStep ok sh p).1.imported ∧
    (sr.skipped = sh.skipped → ok = true →
      (Routes.importStep ok sr p).1 = (Helpers.importStep ok sh p).1) := by
  unfold Routes.importStep Helpers.importStep Helpers._process_and_add_contact
  cases hm : _map_google_contact_to_ldap p with
  | none =>
    refine ⟨he, hn, hi, ?_⟩
    intro hsk _
    cases sr; cases sh
    simp_all
  | some attributes =>
    simp only [emailOf, nameOf]
    rw [he, hn]
    by_cases hdup : ((pyLower (attributes.mail.getD "") != "" &&
        sh.emails.contains (pyLower (attributes.mail.getD ""))) ||
        (pyLower (attributes.cn.getD "") != "" &&
        sh.names.contains (pyLower (attributes.cn.getD "")))) = true
    · rw [if_pos hdup, if_pos hdup]
      refine ⟨rfl, rfl, hi, ?_⟩
      intro hsk _
      cases sr; cases sh
      simp_all
    · rw [if_neg hdup, if_neg hdup]
      by_cases hok : ok = true
      · rw [if_pos hok, if_pos hok]
        refine ⟨rfl, rfl, congrArg (· + 1) hi, ?_⟩
        intro hsk _
        cases sr; cases sh
        simp_all
      · rw [if_neg hok, if_neg hok]
        refine ⟨he, hn, hi, ?_⟩
        intro _ hok'
        exact absurd hok' hok

theorem loops_agree (addOk : Nat → Bool) (total : Nat) (ps : List GPerson) :
    ∀ (i : Nat) (sr sh : ImpState),
      sr.emails = sh.emails → sr.names = sh.names → sr.imported = sh.imported →
      (Routes.importLoop addOk total i sr ps).1.emails =
        (Helpers.importLoop addOk total i sh ps).1.emails ∧
      (Routes.importLoop addOk total i sr ps).1.names =
        (Helpers.importLoop addOk total i sh ps).1.names ∧
      (Routes.importLoop addOk total i sr ps).1.imported =
        (Helpers.importLoop addOk total i sh ps).1.imported ∧
      ((Routes.importLoop addOk total i sr ps).2.map
          (fun oe => (oe.2.status, oe.2.current, oe.2.total)) =
        (Helpers.importLoop addOk total i sh ps).2.map
          (fun e => (e.status, e.current, e.total))) ∧
      (sr.skipped = sh.skipped → (∀ n, addOk n = true) →
        (Routes.importLoop addOk total i sr ps).1 =
          (Helpers.importLoop addOk total i sh ps).1) := by
  induction ps with
  | nil =>
    intro i sr sh he hn hi
    refine ⟨he, hn, hi, rfl, ?_⟩
    intro hsk _
    show sr = sh
    cases sr; cases sh
    simp_all
  | cons p rest ih =>
    intro i sr sh he hn hi
    obtain ⟨hse, hsn, hsi, hstate⟩ := steps_agree (addOk i) sr sh p he hn hi
    obtain ⟨e1, e2, e3, e4, e5⟩ := ih (i + 1) (Routes.importStep (addOk i) sr p).1
      (Helpers.importStep (addOk i) sh p).1 hse hsn hsi
    simp only [Routes.importLoop, Helpers.importLoop]
    refine ⟨e1, e2, e3, ?_, ?_⟩
    · simp only [List.map_cons]
      rw [e4]
    · intro hsk hall
      have hfull := hstate hsk (hall i)
      have hsk' : (Routes.importStep (addOk i) sr p).1.skipped =
          (Helpers.importStep (addOk i) sh p).1.skipped :=
        congrArg ImpState.skipped hfull
      exact e5 hsk' hall

/-- Claim C10, amended: for every identical input (token, fetched contact
list, pre-existing destination entries, and directory-add outcomes) the
two `generate_import_stream` implementations emit the same sequence of
event statuses and progress counters (`status`, `current`, `total`) and
compute the same imported count and the same scheduling decision; when
every directory add succeeds their final states (including the skipped
count) coincide.  They differ in message texts and, when an add fails, in
the skipped count. -/
theorem c10_amended (token : Option String) (fetched : Except String (List GPerson))
    (existing : List Record) (addOk : Nat → Bool) :
    ((Routes.generate_import_stream token fetched existing addOk).events.map
        (fun e => (e.status, e.current, e.total)) =
      (Helpers.generate_import_stream token fetched existing addOk).events.map
        (fun e => (e.status, e.current, e.total))) ∧
    ((Routes.generate_import_stream token fetched existing addOk).finalState.map
        ImpState.imported =
      (Helpers.generate_import_stream token fetched existing addOk).finalState.map
        ImpState.imported) ∧
    ((Routes.generate_import_stream token fetched existing addOk).scheduled =
      (Helpers.generate_import_stream token fetched existing addOk).scheduled) ∧
    ((∀ n, addOk n = true) →
      (Routes.generate_import_stream token fetched existing addOk).finalState =
        (Helpers.generate_import_stream token fetched existing addOk).finalState) := by
  cases token with
  | none => exact ⟨rfl, rfl, rfl, fun _ => rfl⟩
  | some t =>
    cases fetched with
    | error e => exact ⟨rfl, rfl, rfl, fun _ => rfl⟩
    | ok conns =>
      by_cases h : (conns.length == 0) = true
      · simp only [Routes.generate_import_stream, Helpers.generate_import_stream]
        rw [if_pos h, if_pos h]
        exact ⟨rfl, rfl, rfl, fun _ => rfl⟩
      · simp only [Routes.generate_import_stream, Helpers.generate_import_stream]
        rw [if_neg h, if_neg h]
        obtain ⟨e1, e2, e3, e4, e5⟩ := loops_agree addOk conns.length conns 0
          { emails := preloadSet existing "mail", names := preloadSet existing "cn",
            imported := 0, skipped := 0 }
          { emails := preloadSet existing "mail", names := preloadSet existing "cn",
            imported := 0, skipped := 0 }
          rfl rfl rfl
        refine ⟨?_, ?_, ?_, ?_⟩
        · simp only [List.map_append, List.map_map]
          exact congrArg₂ (· ++ ·) e4 rfl
        · exact congrArg some e3
        · exact congrArg
            (fun n => if n > 0 then ["manual_refresh_import"] else ([] : List String)) e3
        · intro hall
          exact congrArg some (e5 rfl hall)

/-- Claim C10, witness for the amended theorem on a concrete two-record
run with every add succeeding. -/
theorem c10_amended_witness :
    ((Routes.generate_import_stream (some "tok") (.ok [pNoName, pBob]) []
        (fun _ => true)).events.map (fun e => (e.status, e.current, e.total)) =
      (Helpers.generate_import_stream (some "tok") (.ok [pNoName, pBob]) []
        (fun _ => true)).events.map (fun e => (e.status, e.current, e.total))) ∧
    (Routes.generate_import_stream (some "tok") (.ok [pNoName, pBob]) []
        (fun _ => true)).finalState =
      (Helpers.generate_import_stream (some "tok") (.ok [pNoName, pBob]) []
        (fun _ => true)).finalState := by
  have h := c10_amended (some "tok") (.ok [pNoName, pBob]) [] (fun _ => true)
  exact ⟨h.1, h.2.2.2 (fun _ => rfl)⟩

/-! ### Dict-merge lemmas -/

theorem insertDict_not_mem_keys (k : String) (v : Record) :
    ∀ d : List (String × Record), k ∉ d.map Prod.fst →
      insertDict d k v = d ++ [(k, v)]
  | [], _ => rfl
  | (k', v') :: rest, h => by
    have hk : k' ≠ k := by
      intro he
      exact h (by simp [he])
    have hrest : k ∉ rest.map Prod.fst := by
      intro hm
      exact h (by simp [hm])
    unfold insertDict
    rw [if_neg hk, insertDict_not_mem_keys k v rest hrest]
    simp

theorem keys_insertDict (k : String) (v : Record) :
    ∀ d : List (String × Record),
      (insertDict d k v).map Prod.fst =
        if k ∈ d.map Prod.fst then d.map Prod.fst else d.map Prod.fst ++ [k]
  | [] => by simp [insertDict]
  | (k', v') :: rest => by
    unfold insertDict
    by_cases hk : k' = k
    · subst hk
      simp
    · rw [if_neg hk]
      by_cases hmem : k ∈ rest.map Prod.fst
      · simp [keys_insertDict k v rest, hmem, Ne.symm hk]
      · simp [keys_insertDict k v rest, hmem, Ne.symm hk]

theorem nodup_keys_insertDict (k : String) (v : Record)
    (d : List (String × Record)) (hd : (d.map Prod.fst).Nodup) :
    ((insertDict d k v).map Prod.fst).Nodup := by
  rw [keys_insertDict]
  by_cases hk : k ∈ d.map Prod.fst
  · simpa [hk] using hd
  · rw [if_neg hk]
    exact List.nodup_append.mpr ⟨hd, List.nodup_singleton k, by simpa using hk⟩

theorem pairsOk_insertDict (k : String) (v : Record) (hv : v.dn = k) :
    ∀ d : List (String × Record), pairsOk d → pairsOk (insertDict d k v)
  | [], _ => by
    intro kv hkv
    simp only [insertDict] at hkv
    simp only [List.mem_singleton] at hkv
    subst hkv
    exact hv
  | (k', v') :: rest, hd => by
    intro kv hkv
    unfold insertDict at hkv
    by_cases hk : k' = k
    · rw [if_pos hk] at hkv
      rcases List.mem_cons.mp hkv with h1 | h2
      · subst h1; exact hv
      · exact hd kv (List.mem_cons_of_mem _ h2)
    · rw [if_neg hk] at hkv
      rcases List.mem_cons.mp hkv with h1 | h2
      · subst h1; exact hd (k', v') (List.mem_cons_self _ _)
      · exact pairsOk_insertDict k v hv rest
          (fun kv' hkv' => hd kv' (List.mem_cons_of_mem _ hkv')) kv h2

theorem nodup_keys_foldl :
    ∀ (l : List Record) (d : List (String × Record)),
      (d.map Prod.fst).Nodup →
      ((l.foldl (fun d p => insertDict d p.dn p) d).map Prod.fst).Nodup
  | [], _, h => h
  | p :: rest, d, h =>
    nodup_keys_foldl rest _ (nodup_keys_insertDict p.dn p d h)

theorem pairsOk_foldl :
    ∀ (l : List Record) (d : List (String × Record)),
      pairsOk d → pairsOk (l.foldl (fun d p => insertDict d p.dn p) d)
  | [], _, h => h
  | p :: rest, d, h =>
    pairsOk_foldl rest _ (pairsOk_insertDict p.dn p rfl d h)

theorem lookupKey_insertDict (k0 : String) (v : Record) :
    ∀ (d : List (String × Record)) (k : String),
      lookupKey (insertDict d k0 v) k = if k0 = k then some v else lookupKey d k
  | [], k => by
    unfold insertDict lookupKey
    rfl
  | (k', v') :: rest, k => by
    unfold insertDict
    by_cases hk : k' = k0
    · rw [if_pos hk]
      subst hk
      unfold lookupKey
      by_cases h : k' = k
      · rw [if_pos h, if_pos h]
      · rw [if_neg h, if_neg h, if_neg h]
    · rw [if_neg hk]
      unfold lookupKey
      by_cases hk' : k' = k
      · rw [if_pos hk', if_pos hk']
        have : k0 ≠ k := fun he => hk (hk'.trans he.symm)
        rw [if_neg this]
      · rw [if_neg hk', if_neg hk']
        exact lookupKey_insertDict k0 v rest k

theorem lookupKey_foldl (k : String) :
    ∀ (l : List Record) (d : List (String × Record)),
      lookupKey (l.foldl (fun d p => insertDict d p.dn p) d) k =
        match l.reverse.find? (fun p => p.dn = k) with
        | some p => some p
        | none => lookupKey d k
  | [], d => by simp
  | p :: rest, d => by
    simp only [List.foldl_cons, List.reverse_cons]
    rw [lookupKey_foldl k rest (insertDict d p.dn p)]
    rw [List.find?_append]
    cases hf : rest.reverse.find? (fun p => decide (p.dn = k)) with
    | some q => simp [hf]
    | none =>
      simp only [hf, Option.none_or]
      rw [lookupKey_insertDict]
      by_cases hd : p.dn = k
      · simp [List.find?_cons, hd]
      · simp [List.find?_cons, hd]

theorem mem_values_of_lookupKey :
    ∀ (d : List (String × Record)) (k : String) (v : Record),
      lookupKey d k = some v → v ∈ dictValues d
  | [], k, v, h => by simp [lookupKey] at h
  | (k', v') :: rest, k, v, h => by
    unfold lookupKey at h
    by_cases hk : k' = k
    · rw [if_pos hk, Option.some_inj] at h
      subst h
      simp [dictValues]
    · rw [if_neg hk] at h
      have := mem_values_of_lookupKey rest k v h
      simp only [dictValues, List.map_cons, List.mem_cons]
      exact Or.inr this

theorem filter_dn_eq_single :
    ∀ (l : List Record) (d : String) (r : Record),
      (l.map Record.dn).Nodup → r ∈ l → r.dn = d →
      l.filter (fun x => x.dn = d) = [r]
  | [], _, _, _, hr, _ => absurd hr (List.not_mem_nil _)
  | x :: rest, d, r, hnd, hr, hrd => by
    simp only [List.map_cons, List.nodup_cons] at hnd
    rcases List.mem_cons.mp hr with h1 | h2
    · subst h1
      rw [List.filter_cons, if_pos (by simpa using hrd)]
      have hrest : rest.filter (fun x => decide (x.dn = d)) = [] := by
        rw [List.filter_eq_nil_iff]
        intro a ha hpred
        have had : a.dn = d := by simpa using hpred
        apply hnd.1
        rw [hrd, ← had]
        exact List.mem_map_of_mem Record.dn ha
      rw [hrest]
    · have hx : x.dn ≠ d := by
        intro he
        apply hnd.1
        rw [he, ← hrd]
        exact List.mem_map_of_mem Record.dn h2
      rw [List.filter_cons, if_neg (by simpa using hx)]
      exact filter_dn_eq_single rest d r hnd.2 h2 hrd

theorem foldl_insertDict_append :
    ∀ (l : List Record) (d : List (String × Record)),
      (∀ p ∈ l, p.dn ∉ d.map Prod.fst) → (l.map Record.dn).Nodup →
      l.foldl (fun d p => insertDict d p.dn p) d = d ++ l.map (fun p => (p.dn, p))
  | [], d, _, _ => by simp
  | p :: rest, d, hdisj, hnd => by
    simp only [List.map_cons, List.nodup_cons] at hnd
    simp only [List.foldl_cons]
    rw [insertDict_not_mem_keys p.dn p d (hdisj p (List.mem_cons_self _ _))]
    rw [foldl_insertDict_append rest (d ++ [(p.dn, p)]) ?hd hnd.2]
    · simp
    case hd =>
      intro q hq
      simp only [List.map_append, List.mem_append]
      push_neg
      constructor
      · exact hdisj q (List.mem_cons_of_mem _ hq)
      · simp only [List.map_cons, List.map_nil, List.mem_singleton]
        intro he
        apply hnd.1
        rw [← he]
        exact List.mem_map_of_mem Record.dn hq

theorem dictValues_buildDict_nodup (l : List Record)
    (hnd : (l.map Record.dn).Nodup) : dictValues (buildDict l) = l := by
  unfold buildDict
  rw [foldl_insertDict_append l [] (by simp) hnd]
  unfold dictValues
  simp only [List.nil_append, List.map_map]
  have h : List.map ((fun x : String × Record => x.2) ∘ fun p => (p.dn, p)) l =
      List.map id l :=
    List.map_congr_left (fun a _ => rfl)
  rw [h, List.map_id]

theorem search_ldap_fails_empty (env : LdapEnv)
    (hfail : env.connectOk = false ∨ env.searchExc ≠ none) :
    ∀ f a b, search_ldap env f a b = Except.ok [] := by
  intro f a b
  rcases hfail with h | h
  · simp [search_ldap, h]
  · cases he : env.searchExc with
    | none => exact absurd he h
    | some e => by_cases hc : env.connectOk <;> simp [search_ldap, connSearch, he, hc]

/-- Claim C2: the visibility merge emits at most one record per dn, and a
dn present in both the Snapshot (whose records carry no `is_private`
marker) and the private results resolves to the public copy, which carries
no `is_private` marker. -/
theorem c2_visibility_precedence (priv pub : List Record) (d : String)
    (hflag : ∀ r ∈ pub, r.is_private = none)
    (hd_pub : d ∈ pub.map Record.dn) (hd_priv : d ∈ priv.map Record.dn) :
    ((mergeVisible priv pub).map Record.dn).Nodup ∧
    ∃ r, (mergeVisible priv pub).filter (fun x => x.dn = d) = [r] ∧
      r ∈ pub ∧ r.is_private = none := by
  have hpairs : pairsOk (buildDict (priv.map tagPrivate ++ pub)) :=
    pairsOk_foldl _ [] (by intro kv h; simp at h)
  have hkeys : ((buildDict (priv.map tagPrivate ++ pub)).map Prod.fst).Nodup :=
    nodup_keys_foldl _ [] (by simp)
  have hnodup : ((mergeVisible priv pub).map Record.dn).Nodup := by
    unfold mergeVisible dictValues
    rw [List.map_map]
    have h2 : (buildDict (priv.map tagPrivate ++ pub)).map
        (Record.dn ∘ fun x : String × Record => x.2) =
        (buildDict (priv.map tagPrivate ++ pub)).map Prod.fst :=
      List.map_congr_left (fun kv hkv => hpairs kv hkv)
    rw [h2]
    exact hkeys
  obtain ⟨r0, hr0mem, hr0dn⟩ := List.mem_map.mp hd_pub
  have hsome : (pub.reverse.find? (fun p => p.dn = d)).isSome = true :=
    List.find?_isSome.mpr ⟨r0, List.mem_reverse.mpr hr0mem, by simpa using hr0dn⟩
  obtain ⟨r, hr⟩ := Option.isSome_iff_exists.mp hsome
  have hrmem : r ∈ pub := List.mem_reverse.mp (List.mem_of_find?_eq_some hr)
  have hrdn : r.dn = d := by simpa using List.find?_some hr
  have hlk : lookupKey (buildDict (priv.map tagPrivate ++ pub)) d = some r := by
    unfold buildDict
    rw [lookupKey_foldl]
    rw [List.reverse_append, List.find?_append, hr]
    rfl
  have hrout : r ∈ mergeVisible priv pub := mem_values_of_lookupKey _ d r hlk
  exact ⟨hnodup, r,
    filter_dn_eq_single (mergeVisible priv pub) d r hnodup hrout hrdn,
    hrmem, hflag r hrmem⟩

/-- Claim C2, witness: a Snapshot copy and a stale private copy of the
entry `cn=x`; the merge keeps exactly the public copy, unmarked. -/
theorem c2_visibility_precedence_witness :
    ((mergeVisible [privX] [pubX]).map Record.dn).Nodup ∧
    (mergeVisible [privX] [pubX]).filter
      (fun x => x.dn = "cn=x,ou=contacts,dc=example,dc=com") = [pubX] ∧
    pubX.is_private = none := by
  obtain ⟨h1, r, hfil, hrmem, hrflag⟩ :=
    c2_visibility_precedence [privX] [pubX] "cn=x,ou=contacts,dc=example,dc=com"
      (by intro r hr; simp only [List.mem_singleton] at hr; subst hr; rfl)
      (by decide) (by decide)
  have hr : r = pubX := by simpa using hrmem
  subst hr
  exact ⟨h1, hfil, hrflag⟩

/-- Claim C6, counterexample: with the directory failing and a non-empty
Snapshot cache, `get_visible_contacts` returns the cached public contact —
neither the user's private-only contacts (the failed private search yields
none) nor the empty list the claim would require. -/
theorem c6_counterexample :
    get_visible_contacts env0fail (some [pub0])
        "ou=user_\x7buser_id\x7d,dc=example,dc=com" ["cn"] 7 = .ok [pub0] ∧
    ([pub0] : List Record) ≠ [] ∧
    (∀ f a b, search_ldap env0fail f a b = .ok []) :=
  ⟨rfl, by decide, search_ldap_fails_empty env0fail (Or.inl rfl)⟩

/-- Claim C6, amended: when the directory connection or search fails, the
search primitive returns the empty list rather than raising, and
`get_visible_contacts` consequently returns exactly the cached public
Snapshot (the empty list when the cache is empty or absent) with no
private results and without raising. -/
theorem c6_amended (env : LdapEnv) (cacheVal : Option (List Record))
    (tmpl : String) (attrs : List String) (uid : Nat)
    (f : String) (al : List String) (b : String)
    (hfail : env.connectOk = false ∨ env.searchExc ≠ none)
    (hnd : ((cacheVal.getD []).map Record.dn).Nodup) :
    search_ldap env f al b = .ok [] ∧
    get_visible_contacts env cacheVal tmpl attrs uid = .ok (cacheVal.getD []) := by
  have hs := search_ldap_fails_empty env hfail
  refine ⟨hs f al b, ?_⟩
  have hpriv : (if tmpl ≠ "" then
      search_ldap env "(objectClass=*)" attrs (formatUserId tmpl uid)
      else Except.ok []) = Except.ok ([] : List Record) := by
    by_cases ht : tmpl ≠ ""
    · rw [if_pos ht]
      exact hs _ _ _
    · rw [if_neg ht]
  simp only [get_visible_contacts, hpriv]
  unfold mergeVisible
  rw [show (([] : List Record).map tagPrivate ++ cacheVal.getD []) = cacheVal.getD []
    from by simp]
  rw [dictValues_buildDict_nodup _ hnd]

/-- Claim C6, witness for the amended theorem: failing environment,
Snapshot holding one record. -/
theorem c6_amended_witness :
    (env0fail.connectOk = false ∨ env0fail.searchExc ≠ none) ∧
    (search_ldap env0fail "(objectClass=*)" ["cn"] "ou=x,dc=example,dc=com" = .ok [] ∧
      get_visible_contacts env0fail (some [pub0])
        "ou=user_\x7buser_id\x7d,dc=example,dc=com" ["cn"] 7 = .ok [pub0]) :=
  ⟨Or.inl rfl,
    c6_amended env0fail (some [pub0]) "ou=user_\x7buser_id\x7d,dc=example,dc=com"
      ["cn"] 7 "(objectClass=*)" ["cn"] "ou=x,dc=example,dc=com"
      (Or.inl rfl) (by decide)⟩

/-! ### Import-loop lemmas for the dedup claim -/

theorem importLoop_append (addOk : Nat → Bool) (total : Nat) :
    ∀ (xs ys : List GPerson) (i : Nat) (st : ImpState),
      Routes.importLoop addOk total i st (xs ++ ys) =
        ((Routes.importLoop addOk total (i + xs.length)
            (Routes.importLoop addOk total i st xs).1 ys).1,
          (Routes.importLoop addOk total i st xs).2 ++
            (Routes.importLoop addOk total (i + xs.length)
              (Routes.importLoop addOk total i st xs).1 ys).2)
  | [], ys, i, st => by simp [Routes.importLoop]
  | x :: xs, ys, i, st => by
    simp only [List.cons_append, Routes.importLoop, List.length_cons, List.append_eq]
    rw [importLoop_append addOk total xs ys (i + 1) (Routes.importStep (addOk i) st x).1]
    have hidx : i + 1 + xs.length = i + (xs.length + 1) := by omega
    rw [← hidx]

theorem importStep_mono_emails (ok : Bool) (st : ImpState) (p : GPerson)
    (x : String) (hx : x ∈ st.emails) :
    x ∈ (Routes.importStep ok st p).1.emails := by
  unfold Routes.importStep
  cases hm : _map_google_contact_to_ldap p with
  | none => exact hx
  | some a =>
    dsimp only
    split
    · exact hx
    · split
      · dsimp only
        split
        · exact mem_insertStr_of_mem _ _ _ hx
        · exact hx
      · exact hx

theorem importStep_mono_names (ok : Bool) (st : ImpState) (p : GPerson)
    (x : String) (hx : x ∈ st.names) :
    x ∈ (Routes.importStep ok st p).1.names := by
  unfold Routes.importStep
  cases hm : _map_google_contact_to_ldap p with
  | none => exact hx
  | some a =>
    dsimp only
    split
    · exact hx
    · split
      · dsimp only
        split
        · exact mem_insertStr_of_mem _ _ _ hx
        · exact hx
      · exact hx

theorem importLoop_mono_emails (addOk : Nat → Bool) (total : Nat) :
    ∀ (ps : List GPerson) (i : Nat) (st : ImpState) (x : String),
      x ∈ st.emails → x ∈ (Routes.importLoop addOk total i st ps).1.emails
  | [], _, _, _, hx => hx
  | p :: rest, i, st, x, hx =>
    importLoop_mono_emails addOk total rest (i + 1) (Routes.importStep (addOk i) st p).1 x
      (importStep_mono_emails (addOk i) st p x hx)

theorem importLoop_mono_names (addOk : Nat → Bool) (total : Nat) :
    ∀ (ps : List GPerson) (i : Nat) (st : ImpState) (x : String),
      x ∈ st.names → x ∈ (Routes.importLoop addOk total i st ps).1.names
  | [], _, _, _, hx => hx
  | p :: rest, i, st, x, hx =>
    importLoop_mono_names addOk total rest (i + 1) (Routes.importStep (addOk i) st p).1 x
      (importStep_mono_names (addOk i) st p x hx)

theorem importStep_added_emails (ok : Bool) (st : ImpState) (p : GPerson)
    (a : LdapAttrs) (hm : _map_google_contact_to_ldap p = some a)
    (hadd : (Routes.importStep ok st p).2.1 = Outcome.addedOk)
    (hne : emailOf a ≠ "") :
    emailOf a ∈ (Routes.importStep ok st p).1.emails := by
  unfold Routes.importStep at hadd ⊢
  rw [hm] at hadd ⊢
  dsimp only at hadd ⊢
  by_cases hdup : ((emailOf a != "" && st.emails.contains (emailOf a)) ||
      (nameOf a != "" && st.names.contains (nameOf a))) = true
  · rw [if_pos hdup] at hadd
    exact absurd hadd (by simp)
  · rw [if_neg hdup] at hadd ⊢
    by_cases hok : ok = true
    · rw [if_pos hok]
      have hne' : (emailOf a != "") = true := by simpa using hne
      dsimp only
      rw [if_pos hne']
      exact mem_insertStr_self _ _
    · rw [if_neg hok] at hadd
      exact absurd hadd (by simp)

theorem importStep_added_names (ok : Bool) (st : ImpState) (p : GPerson)
    (a : LdapAttrs) (hm : _map_google_contact_to_ldap p = some a)
    (hadd : (Routes.importStep ok st p).2.1 = Outcome.addedOk)
    (hne : nameOf a ≠ "") :
    nameOf a ∈ (Routes.importStep ok st p).1.names := by
  unfold Routes.importStep at hadd ⊢
  rw [hm] at hadd ⊢
  dsimp only at hadd ⊢
  by_cases hdup : ((emailOf a != "" && st.emails.contains (emailOf a)) ||
      (nameOf a != "" && st.names.contains (nameOf a))) = true
  · rw [if_pos hdup] at hadd
    exact absurd hadd (by simp)
  · rw [if_neg hdup] at hadd ⊢
    by_cases hok : ok = true
    · rw [if_pos hok]
      have hne' : (nameOf a != "") = true := by simpa using hne
      dsimp only
      rw [if_pos hne']
      exact mem_insertStr_self _ _
    · rw [if_neg hok] at hadd
      exact absurd hadd (by simp)

theorem importStep_dup_of_mem (ok : Bool) (st : ImpState) (p : GPerson)
    (a : LdapAttrs) (hm : _map_google_contact_to_ldap p = some a)
    (hmem : (emailOf a ≠ "" ∧ emailOf a ∈ st.emails) ∨
      (nameOf a ≠ "" ∧ nameOf a ∈ st.names)) :
    (Routes.importStep ok st p).2.1 = Outcome.dupSkip := by
  unfold Routes.importStep
  rw [hm]
  dsimp only
  have hcond : ((emailOf a != "" && st.emails.contains (emailOf a)) ||
      (nameOf a != "" && st.names.contains (nameOf a))) = true := by
    rcases hmem with ⟨h1, h2⟩ | ⟨h1, h2⟩
    · simp only [Bool.or_eq_true, Bool.and_eq_true]
      exact Or.inl ⟨by simpa using h1, (contains_iff_mem _ _).mpr h2⟩
    · simp only [Bool.or_eq_true, Bool.and_eq_true]
      exact Or.inr ⟨by simpa using h1, (contains_iff_mem _ _).mpr h2⟩
  rw [if_pos hcond]

/-- Claim C4, counterexample: two records in one batch share the nonempty
lowercase email `x@y.com`; the earlier record's directory add fails, so the
running sets are not extended, and the later record is then written
(outcome `addedOk`), not skipped — the run ends with skipped count 0,
against the claim that the later of two same-email records is skipped. -/
theorem c4_counterexample :
    Option.map emailOf (_map_google_contact_to_ldap pAnnA) = some "x@y.com" ∧
    Option.map emailOf (_map_google_contact_to_ldap pAnnB) = some "x@y.com" ∧
    ("x@y.com" : String) ≠ "" ∧
    (Routes.generate_import_stream (some "tok") (.ok [pAnnA, pAnnB]) []
        (fun i => i == 1)).outcomes = [Outcome.addFailed, Outcome.addedOk] ∧
    (Routes.generate_import_stream (some "tok") (.ok [pAnnA, pAnnB]) []
        (fun i => i == 1)).finalState.map ImpState.skipped = some 0 :=
  ⟨rfl, rfl, by decide, rfl, rfl⟩

/-- Claim C4, amended: in the endpoint's import loop, (i) a record with a
resolvable display name is skipped as a duplicate if and only if its
lowercase email or its lowercase name is in the corresponding running set
at the time it is processed (with the running sets free of the empty
string, as preloaded sets and all updates are); (ii) the running sets are
unchanged unless the record's directory add succeeds, in which case they
are extended with exactly the record's nonempty lowercase email and
nonempty lowercase name; (iii) consequently, for any two records in the
same batch with the same nonempty lowercase email (or the same nonempty
lowercase name), at most one is written, and if the earlier one is
written the later one is skipped as a duplicate. -/
theorem c4_amended :
    (∀ (ok : Bool) (st : ImpState) (p : GPerson) (a : LdapAttrs),
      noEmptyKeys st → _map_google_contact_to_ldap p = some a →
      ((Routes.importStep ok st p).2.1 = Outcome.dupSkip ↔
        emailOf a ∈ st.emails ∨ nameOf a ∈ st.names)) ∧
    (∀ (ok : Bool) (st : ImpState) (p : GPerson),
      ((Routes.importStep ok st p).2.1 ≠ Outcome.addedOk →
        (Routes.importStep ok st p).1.emails = st.emails ∧
        (Routes.importStep ok st p).1.names = st.names) ∧
      (∀ a, _map_google_contact_to_ldap p = some a →
        (Routes.importStep ok st p).2.1 = Outcome.addedOk →
        (Routes.importStep ok st p).1.emails =
          (if emailOf a != "" then insertStr st.emails (emailOf a) else st.emails) ∧
        (Routes.importStep ok st p).1.names =
          (if nameOf a != "" then insertStr st.names (nameOf a) else st.names))) ∧
    (∀ (addOk : Nat → Bool) (total i : Nat) (st0 : ImpState)
      (l₁ : List GPerson) (pi : GPerson) (l₂ : List GPerson) (pj : GPerson)
      (l₃ : List GPerson) (ai aj : LdapAttrs),
      _map_google_contact_to_ldap pi = some ai →
      _map_google_contact_to_ldap pj = some aj →
      ((emailOf ai = emailOf aj ∧ emailOf ai ≠ "") ∨
        (nameOf ai = nameOf aj ∧ nameOf ai ≠ "")) →
      ∀ st1 tr1, Routes.importLoop addOk total i st0 l₁ = (st1, tr1) →
      ∀ st2 oi mi,
        Routes.importStep (addOk (i + l₁.length)) st1 pi = (st2, oi, mi) →
      ∀ st3 tr2,
        Routes.importLoop addOk total (i + l₁.length + 1) st2 l₂ = (st3, tr2) →
      ∀ st4 oj mj,
        Routes.importStep (addOk (i + l₁.length + 1 + l₂.length)) st3 pj =
          (st4, oj, mj) →
      ∀ st5 tr3,
        Routes.importLoop addOk total (i + l₁.length + 1 + l₂.length + 1) st4 l₃ =
          (st5, tr3) →
      ((Routes.importLoop addOk total i st0
          (l₁ ++ pi :: (l₂ ++ pj :: l₃))).2.map Prod.fst =
        tr1.map Prod.fst ++ oi :: (tr2.map Prod.fst ++ oj :: tr3.map Prod.fst)) ∧
      ¬(oi = Outcome.addedOk ∧ oj = Outcome.addedOk) ∧
      (oi = Outcome.addedOk → oj = Outcome.dupSkip)) := by
  refine ⟨?_, ?_, ?_⟩
  · intro ok st p a hek hm
    unfold Routes.importStep
    rw [hm]
    dsimp only
    by_cases hdup : ((emailOf a != "" && st.emails.contains (emailOf a)) ||
        (nameOf a != "" && st.names.contains (nameOf a))) = true
    · rw [if_pos hdup]
      constructor
      · intro _
        simp only [Bool.or_eq_true, Bool.and_eq_true] at hdup
        rcases hdup with ⟨_, h2⟩ | ⟨_, h2⟩
        · exact Or.inl ((contains_iff_mem _ _).mp h2)
        · exact Or.inr ((contains_iff_mem _ _).mp h2)
      · intro _
        rfl
    · rw [if_neg hdup]
      have hnomem : ¬(emailOf a ∈ st.emails ∨ nameOf a ∈ st.names) := by
        intro hmem
        apply hdup
        rcases hmem with h2 | h2
        · have hne : emailOf a ≠ "" := fun he => hek.1 (he ▸ h2)
          simp only [Bool.or_eq_true, Bool.and_eq_true]
          exact Or.inl ⟨by simpa using hne, (contains_iff_mem _ _).mpr h2⟩
        · have hne : nameOf a ≠ "" := fun he => hek.2 (he ▸ h2)
          simp only [Bool.or_eq_true, Bool.and_eq_true]
          exact Or.inr ⟨by simpa using hne, (contains_iff_mem _ _).mpr h2⟩
      by_cases hok : ok = true
      · rw [if_pos hok]
        constructor
        · intro hout
          exact absurd hout (by simp)
        · intro hmem
          exact absurd hmem hnomem
      · rw [if_neg hok]
        constructor
        · intro hout
          exact absurd hout (by simp)
        · intro hmem
          exact absurd hmem hnomem
  · intro ok st p
    constructor
    · intro hne
      unfold Routes.importStep at hne ⊢
      cases hm : _map_google_contact_to_ldap p with
      | none =>
        exact ⟨rfl, rfl⟩
      | some a =>
        rw [hm] at hne
        dsimp only at hne ⊢
        by_cases hdup : ((emailOf a != "" && st.emails.contains (emailOf a)) ||
            (nameOf a != "" && st.names.contains (nameOf a))) = true
        · rw [if_pos hdup]
          exact ⟨rfl, rfl⟩
        · rw [if_neg hdup] at hne ⊢
          by_cases hok : ok = true
          · rw [if_pos hok] at hne
            exact absurd rfl hne
          · rw [if_neg hok]
            exact ⟨rfl, rfl⟩
    · intro a hm hadd
      unfold Routes.importStep at hadd ⊢
      rw [hm] at hadd ⊢
      dsimp only at hadd ⊢
      by_cases hdup : ((emailOf a != "" && st.emails.contains (emailOf a)) ||
          (nameOf a != "" && st.names.contains (nameOf a))) = true
      · rw [if_pos hdup] at hadd
        exact absurd hadd (by simp)
      · rw [if_neg hdup] at hadd ⊢
        by_cases hok : ok = true
        · rw [if_pos hok]
          exact ⟨rfl, rfl⟩
        · rw [if_neg hok] at hadd
          exact absurd hadd (by simp)
  · intro addOk total i st0 l₁ pi l₂ pj l₃ ai aj hmi hmj hkey
    intro st1 tr1 h1 st2 oi mi h2 st3 tr2 h3 st4 oj mj h4 st5 tr3 h5
    have himpl : oi = Outcome.addedOk → oj = Outcome.dupSkip := by
      intro hoi
      have hadd : (Routes.importStep (addOk (i + l₁.length)) st1 pi).2.1 =
          Outcome.addedOk := by
        rw [h2]
        exact hoi
      rcases hkey with ⟨heq, hne⟩ | ⟨heq, hne⟩
      · have hmem2 : emailOf ai ∈
            (Routes.importStep (addOk (i + l₁.length)) st1 pi).1.emails :=
          importStep_added_emails _ _ _ _ hmi hadd hne
        rw [h2] at hmem2
        have hmem3 : emailOf ai ∈
            (Routes.importLoop addOk total (i + l₁.length + 1) st2 l₂).1.emails :=
          importLoop_mono_emails addOk total l₂ _ _ _ hmem2
        rw [h3] at hmem3
        have hdupj := importStep_dup_of_mem
          (addOk (i + l₁.length + 1 + l₂.length)) st3 pj aj hmj
          (Or.inl ⟨by rw [← heq]; exact hne, by rw [← heq]; exact hmem3⟩)
        rw [h4] at hdupj
        exact hdupj
      · have hmem2 : nameOf ai ∈
            (Routes.importStep (addOk (i + l₁.length)) st1 pi).1.names :=
          importStep_added_names _ _ _ _ hmi hadd hne
        rw [h2] at hmem2
        have hmem3 : nameOf ai ∈
            (Routes.importLoop addOk total (i + l₁.length + 1) st2 l₂).1.names :=
          importLoop_mono_names addOk total l₂ _ _ _ hmem2
        rw [h3] at hmem3
        have hdupj := importStep_dup_of_mem
          (addOk (i + l₁.length + 1 + l₂.length)) st3 pj aj hmj
          (Or.inr ⟨by rw [← heq]; exact hne, by rw [← heq]; exact hmem3⟩)
        rw [h4] at hdupj
        exact hdupj
    refine ⟨?_, ?_, himpl⟩
    · rw [importLoop_append addOk total l₁ (pi :: (l₂ ++ pj :: l₃)) i st0]
      rw [h1]
      dsimp only
      simp only [Routes.importLoop]
      rw [h2]
      dsimp only
      rw [importLoop_append addOk total l₂ (pj :: l₃) (i + l₁.length + 1) st2]
      rw [h3]
      dsimp only
      simp only [Routes.importLoop]
      rw [h4]
      dsimp only
      rw [h5]
      simp [List.map_append]
    · rintro ⟨ha, hb⟩
      have hd := himpl ha
      rw [hd] at hb
      exact absurd hb (by simp)

/-- Claim C4, witness: applies the amended theorem on concrete runs — the
skip-iff at an empty state, the set-extension equation for a successful
add, and the pairwise consequence on the two same-email records processed
back to back with all adds succeeding. -/
theorem c4_amended_witness :
    ((Routes.importStep true st0empty pBob).2.1 = Outcome.dupSkip ↔
      emailOf aBob ∈ st0empty.emails ∨ nameOf aBob ∈ st0empty.names) ∧
    ((Routes.importStep true st0empty pBob).1.emails =
        (if emailOf aBob != "" then insertStr st0empty.emails (emailOf aBob)
          else st0empty.emails) ∧
      (Routes.importStep true st0empty pBob).1.names =
        (if nameOf aBob != "" then insertStr st0empty.names (nameOf aBob)
          else st0empty.names)) ∧
    ((Routes.importStep true st0empty pAnnA).2.1 = Outcome.addedOk →
      (Routes.importStep true ((Routes.importStep true st0empty pAnnA).1) pAnnB).2.1 =
        Outcome.dupSkip) := by
  refine ⟨?_, ?_, ?_⟩
  · exact c4_amended.1 true st0empty pBob aBob ⟨by simp [st0empty], by simp [st0empty]⟩ rfl
  · exact (c4_amended.2.1 true st0empty pBob).2 aBob rfl rfl
  · have h := c4_amended.2.2 (fun _ => true) 2 0 st0empty [] pAnnA [] pAnnB []
      aAnnA aAnnB rfl rfl (Or.inl ⟨rfl, by decide⟩)
      st0empty [] rfl
      ((Routes.importStep true st0empty pAnnA).1)
      ((Routes.importStep true st0empty pAnnA).2.1)
      ((Routes.importStep true st0empty pAnnA).2.2) rfl
      ((Routes.importStep true st0empty pAnnA).1) [] rfl
      ((Routes.importStep true ((Routes.importStep true st0empty pAnnA).1) pAnnB).1)
      ((Routes.importStep true ((Routes.importStep true st0empty pAnnA).1) pAnnB).2.1)
      ((Routes.importStep true ((Routes.importStep true st0empty pAnnA).1) pAnnB).2.2) rfl
      ((Routes.importStep true ((Routes.importStep true st0empty pAnnA).1) pAnnB).1) [] rfl
    exact h.2.2
